import Mathlib

/-!
Verification of the persistence and validation layer of the client/budget
record application (files `main.py` and `budget.py`).

The relevant code is shallowly embedded: rows of the `clients` and `budgets`
tables become structures, the SQL statements issued by the record services
become pure functions on lists of rows, and the regular expressions of
`DataValidator` become executable character-level matchers.  The database
connection machinery, the Tk widgets and the dialogs are presentation-only
and are not part of the embedding; the values they deliver (field strings,
the random draw of `secrets.randbelow`, the current date) become parameters
of the embedded operations.
-/

/- ### Data model

`clients` table of `main.py` / `budget.py` (`init_database`):
columns `client_id, name, email, phone, observation, date_added`
(the auto-increment key plays no role in any of the statements modelled). -/

structure Client where
  client_id : String
  name : String
  email : String
  phone : String
  observation : String
  date_added : String
deriving DecidableEq

/-- Row of the `budgets` table as created by `main.py`'s `init_database`:
columns `budget_id, name, email, date, type, completion, deadline, service`. -/
structure BudgetMain where
  budget_id : String
  name : String
  email : String
  date : String
  type : String
  completion : String
  deadline : String
  service : String
deriving DecidableEq

/-- Row of the `budgets` table as created by `budget.py`'s `init_database`:
columns `budget_id, client_id, date, type, completion, deadline, service`.
The client reference is inserted via a scalar subquery and may be SQL NULL,
hence `Option String`. -/
structure BudgetRow where
  budget_id : String
  client_id : Option String
  date : String
  type : String
  completion : String
  deadline : String
  service : String
deriving DecidableEq

def dummyClient : Client :=
  { client_id := "", name := "", email := "", phone := "", observation := "", date_added := "" }

/- ### Search (`DatabaseApp.filter_data`, main.py lines 749-769) -/

/-- Python's substring containment `needle in hay` scanned position by
position over the character list of `hay`. -/
def pyInChars (needle : List Char) : List Char → Bool
  | [] => needle.isEmpty
  | c :: rest => needle.isPrefixOf (c :: rest) || pyInChars needle rest

/-- Python's substring containment `needle in hay` on strings. -/
def pyIn (needle hay : String) : Bool :=
  pyInChars needle.data hay.data

/-- Python's `str.lower` on the ASCII repertoire this application handles:
each character is lowered individually. -/
def pyLower (s : String) : String :=
  ⟨s.data.map Char.toLower⟩

/-- Predicate applied to each fetched row by `filter_data`: the lowered
search term must occur in one of the six lowered fields
(`search_term in row[i].lower()` for i = 0..5). -/
def rowMatches (term : String) (c : Client) : Bool :=
  pyIn (pyLower term) (pyLower c.client_id) ||
  pyIn (pyLower term) (pyLower c.name) ||
  pyIn (pyLower term) (pyLower c.email) ||
  pyIn (pyLower term) (pyLower c.phone) ||
  pyIn (pyLower term) (pyLower c.observation) ||
  pyIn (pyLower term) (pyLower c.date_added)

/-- `DatabaseApp.filter_data`: re-populates the table with exactly the rows
passing `rowMatches` for the current search entry, in storage order. -/
def filter_data (clients : List Client) (term : String) : List Client :=
  clients.filter (rowMatches term)

/- ### Email validation (`DataValidator.validate_email`, main.py lines
102-107 and budget.py lines 31-36) -/

def isEmailLocalChar (c : Char) : Bool :=
  c.isAlpha || c.isDigit || c == '_' || c == '.' || c == '+' || c == '-'

def isEmailDomainChar (c : Char) : Bool :=
  c.isAlpha || c.isDigit || c == '-'

def isEmailTldChar (c : Char) : Bool :=
  c.isAlpha || c.isDigit || c == '-' || c == '.'

/-- Embedding of `re.match(r'^[a-zA-Z0-9_.+-]+@[a-zA-Z0-9-]+\.[a-zA-Z0-9-.]+$', s)`
on the character list of `s`.  Because `@` is not a local character and `.`
is not a domain character, the greedy `+` groups match exactly the maximal
runs, so the match is decided without backtracking.  Python's `$` (without
`re.MULTILINE`) matches at the end of the string or just before a single
trailing newline, which the final test reproduces. -/
def validate_email_chars (cs : List Char) : Bool :=
  match cs.dropWhile isEmailLocalChar with
  | '@' :: r2 =>
    (match r2.dropWhile isEmailDomainChar with
     | '.' :: r4 =>
       !(cs.takeWhile isEmailLocalChar).isEmpty &&
       !(r2.takeWhile isEmailDomainChar).isEmpty &&
       (!(r4.takeWhile isEmailTldChar).isEmpty &&
        ((r4.dropWhile isEmailTldChar).isEmpty ||
         r4.dropWhile isEmailTldChar == ['\n']))
     | _ => false)
  | _ => false

/-- `DataValidator.validate_email` (identical in both files). -/
def validate_email (email : String) : Bool :=
  validate_email_chars email.data

/-- The language of the regex `^[a-zA-Z0-9_.+-]+@[a-zA-Z0-9-]+\.[a-zA-Z0-9-.]+$`
read as the spec reads it: the FULL string decomposes as a nonempty local
part, `@`, a nonempty domain part, `.`, and a nonempty tail. -/
def EmailShape (cs : List Char) : Prop :=
  ∃ a b c : List Char,
    cs = a ++ '@' :: (b ++ '.' :: c) ∧
    a ≠ [] ∧ (∀ x ∈ a, isEmailLocalChar x = true) ∧
    b ≠ [] ∧ (∀ x ∈ b, isEmailDomainChar x = true) ∧
    c ≠ [] ∧ (∀ x ∈ c, isEmailTldChar x = true)

/- ### Add / edit / delete operations on clients (main.py) -/

/-- The insert performed by `save_client` inside
`open_add_client_observation_dialog` (main.py lines 517-536): one row is
appended with the freshly generated id and the stamped date. -/
def save_client (store : List Client) (cid name email phone obs date : String) : List Client :=
  store ++ [{ client_id := cid, name := name, email := email, phone := phone,
              observation := obs, date_added := date }]

/-- The add-client operation as guarded by `next_step` inside
`open_add_client_dialog` (main.py lines 465-481): the name must differ from
its placeholder and be nonempty, and an email differing from its placeholder
must pass `validate_email`; otherwise nothing is written. -/
def add_client (store : List Client) (name email phone obs cid date : String) :
    Option (List Client) :=
  if name == "Digite o nome" || name == "" then none
  else if email != "Digite o email" && !(validate_email email) then none
  else some (save_client store cid name email phone obs date)

/-- The update performed by `save_client` inside
`open_edit_client_observation_dialog` (main.py lines 572-590):
`UPDATE clients SET name=?, email=?, phone=?, observation=? WHERE client_id=?`. -/
def edit_client (store : List Client) (cid name email phone obs : String) : List Client :=
  store.map (fun c =>
    if c.client_id == cid then
      { c with name := name, email := email, phone := phone, observation := obs }
    else c)

/-- `DatabaseApp.delete_client_record` (main.py lines 414-434):
`DELETE FROM clients WHERE client_id=?`. -/
def delete_client_record (store : List Client) (cid : String) : List Client :=
  store.filter (fun c => !(c.client_id == cid))

/-- `BudgetManager.delete_budget_record` (budget.py lines 369-389):
`DELETE FROM budgets WHERE budget_id=?`. -/
def delete_budget_record (store : List BudgetRow) (bid : String) : List BudgetRow :=
  store.filter (fun b => !(b.budget_id == bid))

/- ### Add budget in main.py (`save_budget` inside `open_add_budget_dialog`,
lines 657-692) -/

/-- The add-budget operation of main.py: same name/email guards as
`add_client`, then an insert of the eight-column row. -/
def save_budget_main (store : List BudgetMain)
    (name email btype completion deadline service bid date : String) :
    Option (List BudgetMain) :=
  if name == "Digite o nome" || name == "" then none
  else if email != "Digite o email" && !(validate_email email) then none
  else some (store ++ [{ budget_id := bid, name := name, email := email, date := date,
                         type := btype, completion := completion, deadline := deadline,
                         service := service }])

/- ### Add budget in budget.py (`save_budget` inside
`BudgetManager.open_add_budget_dialog`, lines 212-240) -/

/-- The scalar subquery `(SELECT client_id FROM clients WHERE name=?)`:
the `client_id` of the first row whose `name` equals the argument, or SQL
NULL when no row matches. -/
def lookup_client_id (clients : List Client) (name : String) : Option String :=
  (clients.find? (fun c => c.name == name)).map (fun c => c.client_id)

/-- The add-budget operation of budget.py: the client name must differ from
its placeholder and be nonempty; the insert stores the looked-up client
reference. -/
def save_budget_bp_add (clients : List Client) (budgets : List BudgetRow)
    (client_name btype completion deadline service bid date : String) :
    Option (List BudgetRow) :=
  if client_name == "Digite o nome do cliente" || client_name == "" then none
  else some (budgets ++ [{ budget_id := bid, client_id := lookup_client_id clients client_name,
                           date := date, type := btype, completion := completion,
                           deadline := deadline, service := service }])

/- ### Edit budget in budget.py (`save_budget` inside
`BudgetManager.open_edit_budget_dialog`, lines 316-349) -/

/-- Columns of the `budgets` table created by budget.py's `init_database`
(lines 88-96). -/
def budgets_columns_bp : List String :=
  ["id", "budget_id", "client_id", "date", "type", "completion", "deadline", "service"]

/-- Columns named in the SET clause of the UPDATE issued by the edit-budget
dialog of budget.py (lines 337-341). -/
def edit_budget_set_cols : List String :=
  ["name", "email", "type", "completion", "deadline", "service"]

inductive EditBudgetOutcome where
  | validationError : EditBudgetOutcome
  | storageError : String → EditBudgetOutcome
  | ok : List BudgetRow → EditBudgetOutcome
deriving DecidableEq

/-- The edit-budget operation of budget.py: after the name/email guards, the
UPDATE statement is prepared against the budget.py schema; SQLite rejects a
SET clause naming a column absent from the table with a no-such-column error
before touching any row, so the statement either fails as a whole or (were
every column present) updates the matching rows.  The `none` branch is
unreachable for this statement because `name` and `email` are not columns of
`budgets_columns_bp`; it applies the existing-column assignments. -/
def save_budget_bp_edit (store : List BudgetRow)
    (bid name email btype completion deadline service : String) : EditBudgetOutcome :=
  if name == "Digite o nome" || name == "" then .validationError
  else if email != "Digite o email" && !(validate_email email) then .validationError
  else
    match edit_budget_set_cols.find? (fun c => !(budgets_columns_bp.contains c)) with
    | some c => .storageError c
    | none => .ok (store.map (fun b =>
        if b.budget_id == bid then
          { b with type := btype, completion := completion, deadline := deadline,
                   service := service }
        else b))

/- ### Identifier generation (`generate_client_id` / `generate_budget_id`,
main.py lines 141-147 and budget.py lines 434-437) -/

/-- Decimal digit character, `chr(48 + d)` for d < 10. -/
def digitChar (d : Nat) : Char := Char.ofNat (48 + d)

/-- Fuel-indexed base-10 rendering; with fuel at least the number being
rendered it computes the standard most-significant-first digit list. -/
def decDigitsAux : Nat → Nat → List Char
  | 0, n => [digitChar n]
  | fuel + 1, n =>
    if n < 10 then [digitChar n]
    else decDigitsAux fuel (n / 10) ++ [digitChar (n % 10)]

/-- Base-10 digit string of a natural number, as Python's `str` renders a
nonnegative `int`. -/
def decDigits (n : Nat) : List Char := decDigitsAux n n

def pyStr (n : Nat) : String := ⟨decDigits n⟩

/-- `DatabaseApp.generate_client_id`: the Python expression
`f"AUT-{secrets.randbelow(9000) + 1000}"`, with the uniform draw
`secrets.randbelow(9000)` passed in as the parameter `r` (so `r < 9000`). -/
def generate_client_id (r : Nat) : String := "AUT-" ++ pyStr (r + 1000)

/-- `generate_budget_id` (identical in main.py and budget.py):
`f"ART-{secrets.randbelow(9000) + 1000}"`. -/
def generate_budget_id (r : Nat) : String := "ART-" ++ pyStr (r + 1000)

/- ### Phone formatting (`DatabaseApp.format_phone_entry`, main.py lines
610-626) -/

/-- The progressive grouping applied to the digit list `phone`: the Python
code concatenates `"(" + phone[:2]`, `") " + phone[2:3]`, `" " + phone[3:7]`
and `"-" + phone[7:11]` under the corresponding length guards. -/
def format_phone_digits (p : List Char) : List Char :=
  (if p.length > 0 then '(' :: p.take 2 else []) ++
  (if p.length > 2 then ')' :: ' ' :: (p.drop 2).take 1 else []) ++
  (if p.length > 3 then ' ' :: (p.drop 3).take 4 else []) ++
  (if p.length > 7 then '-' :: (p.drop 7).take 4 else [])

/-- `DatabaseApp.format_phone_entry` as a string transformer: the entry text
is read, `re.sub(r'\D', '', ...)` keeps only the digits (ASCII digits in the
inputs this application handles), and the grouped rendering replaces the
entry content. -/
def format_phone_entry (s : String) : String :=
  ⟨format_phone_digits (s.data.filter Char.isDigit)⟩

/- ### Concrete clients of the search scenario -/

def anaClient : Client :=
  { client_id := "AUT-1001", name := "Ana", email := "", phone := "",
    observation := "", date_added := "01/01/2024" }

def brunoClient : Client :=
  { client_id := "AUT-1002", name := "Bruno", email := "", phone := "",
    observation := "", date_added := "01/01/2024" }

def carlaClient : Client :=
  { client_id := "AUT-1003", name := "Carla", email := "", phone := "",
    observation := "", date_added := "01/01/2024" }

/- ### The scan of `pyInChars` decides the substring relation -/

theorem pyInChars_iff (n : List Char) : ∀ h : List Char, pyInChars n h = true ↔ n <:+: h := by
  intro h
  induction h with
  | nil =>
    simp [pyInChars, List.isEmpty_iff, List.infix_nil]
  | cons c t ih =>
    simp [pyInChars, Bool.or_eq_true, List.isPrefixOf_iff_prefix, ih, List.infix_cons_iff]

theorem pyIn_iff (needle hay : String) : pyIn needle hay = true ↔ needle.data <:+: hay.data :=
  pyInChars_iff needle.data hay.data

/-- C1: for every stored list of client records and every search term, the
filtered listing keeps exactly the records where the lowercased term occurs
as a substring of one of the six lowercased fields, in storage order and
with no record invented; and on the clients Ana, Bruno, Carla the term
"an" returns exactly the record named Ana. -/
theorem filter_data_exact :
    ∀ (clients : List Client) (term : String) (c : Client),
      (c ∈ filter_data clients term ↔
        c ∈ clients ∧
          ((pyLower term).data <:+: (pyLower c.client_id).data ∨
           (pyLower term).data <:+: (pyLower c.name).data ∨
           (pyLower term).data <:+: (pyLower c.email).data ∨
           (pyLower term).data <:+: (pyLower c.phone).data ∨
           (pyLower term).data <:+: (pyLower c.observation).data ∨
           (pyLower term).data <:+: (pyLower c.date_added).data)) ∧
      (filter_data clients term).Sublist clients ∧
      filter_data [anaClient, brunoClient, carlaClient] "an" = [anaClient] := by
  intro clients term c
  refine ⟨?_, List.filter_sublist _, by decide⟩
  rw [filter_data, List.mem_filter]
  constructor
  · rintro ⟨hm, hr⟩
    refine ⟨hm, ?_⟩
    simp only [rowMatches, Bool.or_eq_true, pyIn_iff] at hr
    tauto
  · rintro ⟨hm, hr⟩
    refine ⟨hm, ?_⟩
    simp only [rowMatches, Bool.or_eq_true, pyIn_iff]
    tauto

/-- C2: editing a client by identifier overwrites exactly the four mutable
fields of each record carrying that identifier, leaves its date-added and
identifier untouched, leaves every record with a different identifier
entirely unchanged, and changes no record count. -/
theorem edit_client_frame :
    ∀ (store : List Client) (cid nm em ph obs : String) (i : Nat),
      i < store.length →
      (edit_client store cid nm em ph obs).length = store.length ∧
      ((store.getD i dummyClient).client_id = cid →
        ((edit_client store cid nm em ph obs).getD i dummyClient).name = nm ∧
        ((edit_client store cid nm em ph obs).getD i dummyClient).email = em ∧
        ((edit_client store cid nm em ph obs).getD i dummyClient).phone = ph ∧
        ((edit_client store cid nm em ph obs).getD i dummyClient).observation = obs ∧
        ((edit_client store cid nm em ph obs).getD i dummyClient).date_added =
          (store.getD i dummyClient).date_added ∧
        ((edit_client store cid nm em ph obs).getD i dummyClient).client_id =
          (store.getD i dummyClient).client_id) ∧
      ((store.getD i dummyClient).client_id ≠ cid →
        (edit_client store cid nm em ph obs).getD i dummyClient =
          store.getD i dummyClient) := by
  intro store cid nm em ph obs i hi
  have hget : (edit_client store cid nm em ph obs).getD i dummyClient =
      (fun c => if c.client_id == cid then
        { c with name := nm, email := em, phone := ph, observation := obs }
       else c) (store.getD i dummyClient) := by
    rw [List.getD_eq_getElem?_getD, List.getD_eq_getElem?_getD, edit_client,
        List.getElem?_map, List.getElem?_eq_getElem hi]
    simp
  refine ⟨by simp [edit_client], ?_, ?_⟩
  · intro hcid
    have h2 : (edit_client store cid nm em ph obs).getD i dummyClient =
        { store.getD i dummyClient with
            name := nm, email := em, phone := ph, observation := obs } := by
      rw [hget]
      simp only [beq_iff_eq]
      rw [if_pos hcid]
    rw [h2]
    exact ⟨rfl, rfl, rfl, rfl, rfl, rfl⟩
  · intro hcid
    have h2 : (edit_client store cid nm em ph obs).getD i dummyClient =
        store.getD i dummyClient := by
      rw [hget]
      simp only [beq_iff_eq]
      rw [if_neg hcid]
    exact h2

/-- Closed instance of `edit_client_frame` at a concrete two-record store. -/
theorem edit_client_frame_witness :
    0 < ([anaClient, brunoClient] : List Client).length ∧
    ((edit_client [anaClient, brunoClient] "AUT-1001" "Ana Maria" "am@x.com" "1" "new").length =
        ([anaClient, brunoClient] : List Client).length ∧
     ((([anaClient, brunoClient] : List Client).getD 0 dummyClient).client_id = "AUT-1001" →
       ((edit_client [anaClient, brunoClient] "AUT-1001" "Ana Maria" "am@x.com" "1" "new").getD 0
         dummyClient).name = "Ana Maria" ∧
       ((edit_client [anaClient, brunoClient] "AUT-1001" "Ana Maria" "am@x.com" "1" "new").getD 0
         dummyClient).email = "am@x.com" ∧
       ((edit_client [anaClient, brunoClient] "AUT-1001" "Ana Maria" "am@x.com" "1" "new").getD 0
         dummyClient).phone = "1" ∧
       ((edit_client [anaClient, brunoClient] "AUT-1001" "Ana Maria" "am@x.com" "1" "new").getD 0
         dummyClient).observation = "new" ∧
       ((edit_client [anaClient, brunoClient] "AUT-1001" "Ana Maria" "am@x.com" "1" "new").getD 0
         dummyClient).date_added =
         (([anaClient, brunoClient] : List Client).getD 0 dummyClient).date_added ∧
       ((edit_client [anaClient, brunoClient] "AUT-1001" "Ana Maria" "am@x.com" "1" "new").getD 0
         dummyClient).client_id =
         (([anaClient, brunoClient] : List Client).getD 0 dummyClient).client_id) ∧
     ((([anaClient, brunoClient] : List Client).getD 0 dummyClient).client_id ≠ "AUT-1001" →
       (edit_client [anaClient, brunoClient] "AUT-1001" "Ana Maria" "am@x.com" "1" "new").getD 0
         dummyClient = ([anaClient, brunoClient] : List Client).getD 0 dummyClient)) :=
  ⟨by decide,
   edit_client_frame [anaClient, brunoClient] "AUT-1001" "Ana Maria" "am@x.com" "1" "new" 0
     (by decide)⟩

/-- C3: deleting by an identifier matching no stored record leaves the
store unchanged (for clients and for budgets), and a second delete with the
same identifier is always a no-op. -/
theorem delete_absent_noop_and_idem :
    (∀ (cs : List Client) (cid : String), (∀ c ∈ cs, c.client_id ≠ cid) →
      delete_client_record cs cid = cs) ∧
    (∀ (bs : List BudgetRow) (bid : String), (∀ b ∈ bs, b.budget_id ≠ bid) →
      delete_budget_record bs bid = bs) ∧
    (∀ (cs : List Client) (cid : String),
      delete_client_record (delete_client_record cs cid) cid =
        delete_client_record cs cid) ∧
    (∀ (bs : List BudgetRow) (bid : String),
      delete_budget_record (delete_budget_record bs bid) bid =
        delete_budget_record bs bid) := by
  refine ⟨?_, ?_, ?_, ?_⟩
  · intro cs cid h
    exact List.filter_eq_self.mpr (fun c hc => by simp [h c hc])
  · intro bs bid h
    exact List.filter_eq_self.mpr (fun b hb => by simp [h b hb])
  · intro cs cid
    rw [delete_client_record, delete_client_record, List.filter_filter]
    simp
  · intro bs bid
    rw [delete_budget_record, delete_budget_record, List.filter_filter]
    simp

/-- Closed instance of `delete_absent_noop_and_idem`: deleting the
identifier "AUT-9999", absent from a one-record store, changes nothing. -/
theorem delete_absent_noop_witness :
    (∀ c ∈ ([anaClient] : List Client), c.client_id ≠ "AUT-9999") ∧
    delete_client_record [anaClient] "AUT-9999" = [anaClient] :=
  ⟨by decide, delete_absent_noop_and_idem.1 [anaClient] "AUT-9999" (by decide)⟩

/-- C4 counterexample: with a valid name, supplying the EMPTY string as
email is rejected by both add operations (it differs from the placeholder
and fails `validate_email`), so the empty string is NOT treated as "not
provided". -/
theorem add_empty_email_rejected :
    add_client [] "Ana" "" "" "" "AUT-1234" "01/01/2024" = none ∧
    save_budget_main [] "Ana" "" "Logo" "" "" "" "ART-1234" "01/01/2024" = none := by
  constructor
  · rfl
  · rfl

/-- C4 amended: with a valid name, an email differing from the placeholder
"Digite o email" that fails the email pattern — the empty string included —
is rejected by `add_client` and by main.py's `save_budget` and nothing is
written, while an email equal to the placeholder, or one passing
`validate_email`, passes the email check and the row is inserted. -/
theorem add_email_check :
    ∀ (store : List Client) (storeB : List BudgetMain)
      (name email phone obs btype completion deadline service cid date : String),
      name ≠ "Digite o nome" → name ≠ "" →
      ((email ≠ "Digite o email" ∧ validate_email email = false →
        add_client store name email phone obs cid date = none ∧
        save_budget_main storeB name email btype completion deadline service cid date = none) ∧
       (email = "Digite o email" ∨ validate_email email = true →
        add_client store name email phone obs cid date =
          some (save_client store cid name email phone obs date) ∧
        save_budget_main storeB name email btype completion deadline service cid date =
          some (storeB ++ [{ budget_id := cid, name := name, email := email, date := date,
                             type := btype, completion := completion, deadline := deadline,
                             service := service }]))) := by
  intro store storeB name email phone obs btype completion deadline service cid date hn1 hn2
  have hname : (name == "Digite o nome" || name == "") = false := by
    simp [hn1, hn2]
  constructor
  · rintro ⟨he1, he2⟩
    have hcond : (email != "Digite o email" && !(validate_email email)) = true := by
      simp [bne_iff_ne, he1, he2]
    constructor
    · rw [add_client, hname]
      simp only [Bool.false_eq_true, if_false, hcond, if_true]
    · rw [save_budget_main, hname]
      simp only [Bool.false_eq_true, if_false, hcond, if_true]
  · intro he
    have hcond : (email != "Digite o email" && !(validate_email email)) = false := by
      rcases he with he | he
      · simp [he]
      · simp [he]
    constructor
    · rw [add_client, hname]
      simp only [Bool.false_eq_true, if_false, hcond]
    · rw [save_budget_main, hname]
      simp only [Bool.false_eq_true, if_false, hcond]

/-- Closed instance of `add_email_check`: the name "Maria" and the valid
email address pass, the placeholder email passes too. -/
theorem add_email_check_witness :
    ("Maria" : String) ≠ "Digite o nome" ∧ ("Maria" : String) ≠ "" ∧
    ((("maria@x.com" : String) ≠ "Digite o email" ∧ validate_email "maria@x.com" = false →
      add_client [] "Maria" "maria@x.com" "" "" "AUT-1000" "01/01/2024" = none ∧
      save_budget_main [] "Maria" "maria@x.com" "Logo" "" "" "" "AUT-1000" "01/01/2024" = none) ∧
     (("maria@x.com" : String) = "Digite o email" ∨ validate_email "maria@x.com" = true →
      add_client [] "Maria" "maria@x.com" "" "" "AUT-1000" "01/01/2024" =
        some (save_client [] "AUT-1000" "Maria" "maria@x.com" "" "" "01/01/2024") ∧
      save_budget_main [] "Maria" "maria@x.com" "Logo" "" "" "" "AUT-1000" "01/01/2024" =
        some ([] ++ [{ budget_id := "AUT-1000", name := "Maria", email := "maria@x.com",
                       date := "01/01/2024", type := "Logo", completion := "", deadline := "",
                       service := "" }]))) :=
  ⟨by decide, by decide,
   add_email_check [] [] "Maria" "maria@x.com" "" "" "Logo" "" "" "" "AUT-1000" "01/01/2024"
     (by decide) (by decide)⟩

/- ### Decimal rendering lemmas -/

theorem decDigitsAux_small (f n : Nat) (h : n < 10) : decDigitsAux f n = [digitChar n] := by
  cases f with
  | zero => rfl
  | succ f => simp [decDigitsAux, h]

theorem decDigitsAux_fuel (n : Nat) :
    ∀ f g : Nat, n ≤ f → n ≤ g → decDigitsAux f n = decDigitsAux g n := by
  induction n using Nat.strong_induction_on with
  | _ n ih =>
    intro f g hf hg
    by_cases h : n < 10
    · rw [decDigitsAux_small f n h, decDigitsAux_small g n h]
    · have h10 : 10 ≤ n := Nat.le_of_not_lt h
      obtain ⟨f', rfl⟩ : ∃ f', f = f' + 1 := ⟨f - 1, by omega⟩
      obtain ⟨g', rfl⟩ : ∃ g', g = g' + 1 := ⟨g - 1, by omega⟩
      simp only [decDigitsAux, if_neg h]
      rw [ih (n / 10) (by omega) f' g' (by omega) (by omega)]

theorem decDigits_small (n : Nat) (h : n < 10) : decDigits n = [digitChar n] :=
  decDigitsAux_small n n h

theorem decDigits_step (n : Nat) (h : 10 ≤ n) :
    decDigits n = decDigits (n / 10) ++ [digitChar (n % 10)] := by
  unfold decDigits
  obtain ⟨m, rfl⟩ : ∃ m, n = m + 1 := ⟨n - 1, by omega⟩
  simp only [decDigitsAux, if_neg (Nat.not_lt.mpr h)]
  rw [decDigitsAux_fuel ((m + 1) / 10) m ((m + 1) / 10) (by omega) (Nat.le_refl _)]

theorem decDigits_length_step (n : Nat) (h : 10 ≤ n) :
    (decDigits n).length = (decDigits (n / 10)).length + 1 := by
  rw [decDigits_step n h]
  simp

theorem decDigits_length4 (n : Nat) (h1 : 1000 ≤ n) (h2 : n ≤ 9999) :
    (decDigits n).length = 4 := by
  rw [decDigits_length_step n (by omega),
      decDigits_length_step (n / 10) (by omega),
      decDigits_length_step (n / 10 / 10) (by omega),
      decDigits_small (n / 10 / 10 / 10) (by omega)]
  rfl

theorem digitChar_isDigit (d : Nat) (h : d < 10) : (digitChar d).isDigit = true := by
  have hall : ∀ e, e < 10 → (digitChar e).isDigit = true := by decide
  exact hall d h

theorem decDigits_all_digits (n : Nat) : ∀ c ∈ decDigits n, c.isDigit = true := by
  induction n using Nat.strong_induction_on with
  | _ n ih =>
    by_cases h : n < 10
    · rw [decDigits_small n h]
      intro c hc
      rw [List.mem_singleton] at hc
      rw [hc]
      exact digitChar_isDigit n h
    · rw [decDigits_step n (Nat.le_of_not_lt h)]
      intro c hc
      rcases List.mem_append.mp hc with hc | hc
      · exact ih (n / 10) (by omega) c hc
      · rw [List.mem_singleton] at hc
        rw [hc]
        exact digitChar_isDigit (n % 10) (Nat.mod_lt n (by omega))

/-- C5: for every uniform draw `r` of `secrets.randbelow(9000)` the
generated identifiers are "AUT-" (resp. "ART-") followed by the decimal
rendering of `r + 1000`, a 4-character all-digit string whose value lies in
[1000, 9999]; and the map from draws to values is a bijection onto
[1000, 9999], so a uniform draw yields a uniform identifier number over the
9000-value range. -/
theorem generate_ids_shape_uniform :
    (∀ r : Nat, r < 9000 →
      generate_client_id r = "AUT-" ++ pyStr (r + 1000) ∧
      generate_budget_id r = "ART-" ++ pyStr (r + 1000) ∧
      (pyStr (r + 1000)).length = 4 ∧
      (∀ c ∈ (pyStr (r + 1000)).data, c.isDigit = true) ∧
      1000 ≤ r + 1000 ∧ r + 1000 ≤ 9999) ∧
    (∀ v : Nat, 1000 ≤ v → v ≤ 9999 → ∃! r : Nat, r < 9000 ∧ r + 1000 = v) := by
  constructor
  · intro r hr
    refine ⟨rfl, rfl, ?_, ?_, by omega, by omega⟩
    · show (decDigits (r + 1000)).length = 4
      exact decDigits_length4 (r + 1000) (by omega) (by omega)
    · show ∀ c ∈ decDigits (r + 1000), c.isDigit = true
      exact decDigits_all_digits (r + 1000)
  · intro v h1 h2
    refine ⟨v - 1000, ⟨by omega, by omega⟩, ?_⟩
    intro y hy
    omega

/-- Closed instance of `generate_ids_shape_uniform` at the draw 234. -/
theorem generate_ids_witness :
    234 < 9000 ∧
    (generate_client_id 234 = "AUT-" ++ pyStr (234 + 1000) ∧
     generate_budget_id 234 = "ART-" ++ pyStr (234 + 1000) ∧
     (pyStr (234 + 1000)).length = 4 ∧
     (∀ c ∈ (pyStr (234 + 1000)).data, c.isDigit = true) ∧
     1000 ≤ 234 + 1000 ∧ 234 + 1000 ≤ 9999) :=
  ⟨by decide, generate_ids_shape_uniform.1 234 (by decide)⟩

/- ### Phone formatting lemmas -/

theorem format_digits_filter (p : List Char) (hp : ∀ c ∈ p, c.isDigit = true) :
    (format_phone_digits p).filter Char.isDigit = p.take 11 := by
  have ftake : ∀ n : Nat, (p.take n).filter Char.isDigit = p.take n :=
    fun n => List.filter_eq_self.mpr (fun c hc => hp c (List.take_subset n p hc))
  have fdt : ∀ m n : Nat, ((p.drop m).take n).filter Char.isDigit = (p.drop m).take n :=
    fun m n => List.filter_eq_self.mpr
      (fun c hc => hp c (List.drop_subset m p (List.take_subset n _ hc)))
  have hparen : Char.isDigit '(' = false := rfl
  have hclose : Char.isDigit ')' = false := rfl
  have hspace : Char.isDigit ' ' = false := rfl
  have hdash : Char.isDigit '-' = false := rfl
  have t3 : List.take 2 p ++ List.take 1 (List.drop 2 p) = List.take 3 p := by
    have h := List.take_add p 2 1
    norm_num at h
    exact h.symm
  have t7 : List.take 3 p ++ List.take 4 (List.drop 3 p) = List.take 7 p := by
    have h := List.take_add p 3 4
    norm_num at h
    exact h.symm
  have t11 : List.take 7 p ++ List.take 4 (List.drop 7 p) = List.take 11 p := by
    have h := List.take_add p 7 4
    norm_num at h
    exact h.symm
  unfold format_phone_digits
  by_cases h0 : p.length > 0
  case neg =>
    have hnil : p = [] := List.length_eq_zero.mp (by omega)
    subst hnil
    simp
  by_cases h2 : p.length > 2
  case neg =>
    rw [if_pos h0, if_neg h2, if_neg (by omega : ¬ p.length > 3),
        if_neg (by omega : ¬ p.length > 7)]
    simp only [List.append_nil, List.filter_cons, hparen, Bool.false_eq_true, if_false, ftake]
    rw [List.take_of_length_le (by omega), List.take_of_length_le (by omega)]
  by_cases h3 : p.length > 3
  case neg =>
    rw [if_pos h0, if_pos h2, if_neg h3, if_neg (by omega : ¬ p.length > 7)]
    simp only [List.append_nil, List.filter_append, List.filter_cons, hparen, hclose, hspace,
      Bool.false_eq_true, if_false, ftake, fdt]
    rw [t3]
    rw [List.take_of_length_le (by omega), List.take_of_length_le (by omega)]
  by_cases h7 : p.length > 7
  case neg =>
    rw [if_pos h0, if_pos h2, if_pos h3, if_neg h7]
    simp only [List.append_nil, List.filter_append, List.filter_cons, hparen, hclose, hspace,
      Bool.false_eq_true, if_false, ftake, fdt]
    rw [t3, t7]
    rw [List.take_of_length_le (by omega), List.take_of_length_le (by omega)]
  case pos =>
    rw [if_pos h0, if_pos h2, if_pos h3, if_pos h7]
    simp only [List.filter_append, List.filter_cons, hparen, hclose, hspace, hdash,
      Bool.false_eq_true, if_false, ftake, fdt]
    rw [t3, t7, t11]

theorem format_phone_digits_take11 (p : List Char) :
    format_phone_digits (p.take 11) = format_phone_digits p := by
  have e2 : (p.take 11).take 2 = p.take 2 := by
    rw [List.take_take, min_eq_left (by norm_num : (2 : Nat) ≤ 11)]
  have e1 : ((p.take 11).drop 2).take 1 = (p.drop 2).take 1 := by
    rw [List.drop_take, List.take_take, min_eq_left (by norm_num : (1 : Nat) ≤ 11 - 2)]
  have e4 : ((p.take 11).drop 3).take 4 = (p.drop 3).take 4 := by
    rw [List.drop_take, List.take_take, min_eq_left (by norm_num : (4 : Nat) ≤ 11 - 3)]
  have e7 : ((p.take 11).drop 7).take 4 = (p.drop 7).take 4 := by
    rw [List.drop_take, List.take_take, min_eq_left (by norm_num : (4 : Nat) ≤ 11 - 7)]
  have i0 : ((p.take 11).length > 0) ↔ (p.length > 0) := by
    rw [List.length_take, gt_iff_lt, lt_min_iff]
    exact ⟨fun h => h.2, fun h => ⟨by norm_num, h⟩⟩
  have i2 : ((p.take 11).length > 2) ↔ (p.length > 2) := by
    rw [List.length_take, gt_iff_lt, lt_min_iff]
    exact ⟨fun h => h.2, fun h => ⟨by norm_num, h⟩⟩
  have i3 : ((p.take 11).length > 3) ↔ (p.length > 3) := by
    rw [List.length_take, gt_iff_lt, lt_min_iff]
    exact ⟨fun h => h.2, fun h => ⟨by norm_num, h⟩⟩
  have i7 : ((p.take 11).length > 7) ↔ (p.length > 7) := by
    rw [List.length_take, gt_iff_lt, lt_min_iff]
    exact ⟨fun h => h.2, fun h => ⟨by norm_num, h⟩⟩
  unfold format_phone_digits
  rw [if_congr i0 (by rw [e2]) rfl, if_congr i2 (by rw [e1]) rfl,
      if_congr i3 (by rw [e4]) rfl, if_congr i7 (by rw [e7]) rfl]

/-- C10: the formatter keeps exactly the first eleven digits of its input,
in order: the digit characters of the formatted output are the first
min(n, 11) digits of the input. -/
theorem format_phone_digit_truncation :
    ∀ s : String,
      (format_phone_entry s).data.filter Char.isDigit =
        (s.data.filter Char.isDigit).take 11 := by
  intro s
  exact format_digits_filter (s.data.filter Char.isDigit)
    (fun c hc => List.of_mem_filter hc)

/-- C6: the phone formatter is idempotent on every input string, and the
already-formatted string "(11) 9 8765-4321" is returned unchanged. -/
theorem format_phone_idempotent :
    ∀ s : String,
      format_phone_entry (format_phone_entry s) = format_phone_entry s ∧
      format_phone_entry "(11) 9 8765-4321" = "(11) 9 8765-4321" := by
  intro s
  refine ⟨?_, by decide⟩
  unfold format_phone_entry
  congr 1
  show format_phone_digits
      ((format_phone_digits (s.data.filter Char.isDigit)).filter Char.isDigit) =
    format_phone_digits (s.data.filter Char.isDigit)
  rw [format_digits_filter (s.data.filter Char.isDigit) (fun c hc => List.of_mem_filter hc)]
  exact format_phone_digits_take11 _

/-- C7: under the identifier-referencing mode of budget.py, adding a budget
(with a nonempty, non-placeholder client name) appends exactly one row whose
client reference is the name-to-identifier lookup performed against the
clients table at insert time, and when no client carries that name the
lookup is SQL NULL — the empty client reference — while the insert still
succeeds. -/
theorem save_budget_bp_add_lookup :
    ∀ (clients : List Client) (budgets : List BudgetRow)
      (client_name btype completion deadline service bid date : String),
      client_name ≠ "Digite o nome do cliente" → client_name ≠ "" →
      save_budget_bp_add clients budgets client_name btype completion deadline service bid date =
        some (budgets ++ [{ budget_id := bid,
                            client_id := lookup_client_id clients client_name,
                            date := date, type := btype, completion := completion,
                            deadline := deadline, service := service }]) ∧
      ((∀ c ∈ clients, c.name ≠ client_name) →
        lookup_client_id clients client_name = none) := by
  intro clients budgets client_name btype completion deadline service bid date h1 h2
  constructor
  · rw [save_budget_bp_add]
    have hcond : (client_name == "Digite o nome do cliente" || client_name == "") = false := by
      simp [h1, h2]
    rw [hcond]
    simp only [Bool.false_eq_true, if_false]
  · intro hnone
    rw [lookup_client_id, List.find?_eq_none.mpr (fun c hc => by simp [hnone c hc])]
    rfl

/-- Closed instance of `save_budget_bp_add_lookup`: inserting a budget for
the unknown client name "Zoe" against a store holding only Ana succeeds and
stores the NULL client reference. -/
theorem save_budget_bp_add_lookup_witness :
    ("Zoe" : String) ≠ "Digite o nome do cliente" ∧ ("Zoe" : String) ≠ "" ∧
    (save_budget_bp_add [anaClient] [] "Zoe" "Logo" "" "" "" "ART-1000" "01/01/2024" =
      some ([] ++ [{ budget_id := "ART-1000",
                     client_id := lookup_client_id [anaClient] "Zoe",
                     date := "01/01/2024", type := "Logo", completion := "",
                     deadline := "", service := "" }]) ∧
     ((∀ c ∈ ([anaClient] : List Client), c.name ≠ "Zoe") →
       lookup_client_id [anaClient] "Zoe" = none)) :=
  ⟨by decide, by decide,
   save_budget_bp_add_lookup [anaClient] [] "Zoe" "Logo" "" "" "" "ART-1000" "01/01/2024"
     (by decide) (by decide)⟩

/-- C9: the UPDATE issued by budget.py's edit-budget dialog names the
columns `name` and `email`, absent from the budgets schema of the same
file, so the operation can never return an updated store: every run ends in
a validation rejection or in the no-such-column storage error, and whenever
the field validation passes the result is exactly the storage error on
column "name"; in every case the stored rows are untouched. -/
theorem save_budget_bp_edit_always_fails :
    ∀ (store : List BudgetRow) (bid nm email btype completion deadline service : String),
      (∀ s' : List BudgetRow,
        save_budget_bp_edit store bid nm email btype completion deadline service ≠
          EditBudgetOutcome.ok s') ∧
      (nm ≠ "Digite o nome" → nm ≠ "" →
        (email = "Digite o email" ∨ validate_email email = true) →
        save_budget_bp_edit store bid nm email btype completion deadline service =
          EditBudgetOutcome.storageError "name") := by
  intro store bid nm email btype completion deadline service
  have hfind : edit_budget_set_cols.find? (fun c => !(budgets_columns_bp.contains c)) =
      some "name" := by decide
  constructor
  · intro s'
    rw [save_budget_bp_edit]
    by_cases ha : (nm == "Digite o nome" || nm == "") = true
    · rw [if_pos ha]
      intro h
      exact EditBudgetOutcome.noConfusion h
    · rw [if_neg ha]
      by_cases hb : (email != "Digite o email" && !(validate_email email)) = true
      · rw [if_pos hb]
        intro h
        exact EditBudgetOutcome.noConfusion h
      · rw [if_neg hb, hfind]
        intro h
        exact EditBudgetOutcome.noConfusion h
  · intro h1 h2 h3
    have ha : (nm == "Digite o nome" || nm == "") = false := by
      simp [h1, h2]
    have hb : (email != "Digite o email" && !(validate_email email)) = false := by
      rcases h3 with h3 | h3
      · simp [h3]
      · simp [h3]
    rw [save_budget_bp_edit, ha]
    simp only [Bool.false_eq_true, if_false, hb]
    rw [hfind]

/-- Closed instance of `save_budget_bp_edit_always_fails`: with valid
fields the edit ends in the no-such-column storage error. -/
theorem save_budget_bp_edit_always_fails_witness :
    ("Maria" : String) ≠ "Digite o nome" ∧ ("Maria" : String) ≠ "" ∧
    (("Digite o email" : String) = "Digite o email" ∨
      validate_email "Digite o email" = true) ∧
    save_budget_bp_edit [] "ART-1000" "Maria" "Digite o email" "Logo" "" "" "" =
      EditBudgetOutcome.storageError "name" :=
  ⟨by decide, by decide, Or.inl rfl,
   (save_budget_bp_edit_always_fails [] "ART-1000" "Maria" "Digite o email" "Logo" "" "" "").2
     (by decide) (by decide) (Or.inl rfl)⟩

/- ### Characterisation of the email matcher -/

theorem takeWhile_all_append {P : Char → Bool} :
    ∀ (a : List Char) (x : Char) (y : List Char), (∀ c ∈ a, P c = true) → P x = false →
      (a ++ x :: y).takeWhile P = a ∧ (a ++ x :: y).dropWhile P = x :: y := by
  intro a x y ha hx
  induction a with
  | nil =>
    simp [List.takeWhile_cons, List.dropWhile_cons, hx]
  | cons c t ih =>
    have hc : P c = true := ha c (by simp)
    have ht : ∀ d ∈ t, P d = true := fun d hd => ha d (by simp [hd])
    have h2 := ih ht
    simp [List.takeWhile_cons, List.dropWhile_cons, hc, h2.1, h2.2]

theorem takeWhile_all_eq {P : Char → Bool} :
    ∀ l : List Char, (∀ c ∈ l, P c = true) →
      l.takeWhile P = l ∧ l.dropWhile P = [] := by
  intro l hl
  induction l with
  | nil => simp
  | cons c t ih =>
    have hc : P c = true := hl c (by simp)
    have ht : ∀ d ∈ t, P d = true := fun d hd => hl d (by simp [hd])
    have h2 := ih ht
    simp [List.takeWhile_cons, List.dropWhile_cons, hc, h2.1, h2.2]

theorem validate_email_chars_iff (cs : List Char) :
    validate_email_chars cs = true ↔
      (EmailShape cs ∨ ∃ t : List Char, cs = t ++ ['\n'] ∧ EmailShape t) := by
  constructor
  · intro h
    unfold validate_email_chars at h
    split at h
    case h_2 => simp at h
    case h_1 r2 heq1 =>
      split at h
      case h_2 => simp at h
      case h_1 r4 heq2 =>
        simp only [Bool.and_eq_true, Bool.or_eq_true, Bool.not_eq_true',
          List.isEmpty_eq_false, List.isEmpty_iff, beq_iff_eq] at h
        obtain ⟨⟨ha, hb⟩, ht, hrest⟩ := h
        have hcs : cs = cs.takeWhile isEmailLocalChar ++ '@' :: r2 := by
          rw [← heq1, List.takeWhile_append_dropWhile]
        have hr2 : r2 = r2.takeWhile isEmailDomainChar ++ '.' :: r4 := by
          rw [← heq2, List.takeWhile_append_dropWhile]
        have hr4 : r4 = r4.takeWhile isEmailTldChar ++ r4.dropWhile isEmailTldChar :=
          (List.takeWhile_append_dropWhile _ _).symm
        have hamem : ∀ x ∈ cs.takeWhile isEmailLocalChar, isEmailLocalChar x = true :=
          fun x hx => List.mem_takeWhile_imp hx
        have hbmem : ∀ x ∈ r2.takeWhile isEmailDomainChar, isEmailDomainChar x = true :=
          fun x hx => List.mem_takeWhile_imp hx
        have htmem : ∀ x ∈ r4.takeWhile isEmailTldChar, isEmailTldChar x = true :=
          fun x hx => List.mem_takeWhile_imp hx
        set A := cs.takeWhile isEmailLocalChar with hA
        set B := r2.takeWhile isEmailDomainChar with hB
        set T := r4.takeWhile isEmailTldChar with hT
        rcases hrest with hrest | hrest
        · left
          have hr4t : r4 = T := by
            rw [hrest, List.append_nil] at hr4
            exact hr4
          refine ⟨A, B, r4, ?_, ha, hamem, hb, hbmem, ?_, ?_⟩
          · rw [hcs, hr2]
          · rw [hr4t]; exact ht
          · intro x hx
            exact htmem x (hr4t ▸ hx)
        · right
          have hr4t : r4 = T ++ ['\n'] := by
            rw [hrest] at hr4
            exact hr4
          refine ⟨A ++ '@' :: (B ++ '.' :: T),
            ?_, A, B, T, rfl, ha, hamem, hb, hbmem, ht, htmem⟩
          rw [hcs, hr2, hr4t]
          simp
  · intro h
    have main : ∀ a b c : List Char, a ≠ [] → (∀ x ∈ a, isEmailLocalChar x = true) →
        b ≠ [] → (∀ x ∈ b, isEmailDomainChar x = true) →
        c ≠ [] → (∀ x ∈ c, isEmailTldChar x = true) →
        ∀ tail : List Char, tail = [] ∨ tail = ['\n'] →
        validate_email_chars (a ++ '@' :: (b ++ '.' :: (c ++ tail))) = true := by
      intro a b c ha0 hal hb0 hbl hc0 hcl tail htail
      obtain ⟨hta, hda⟩ := takeWhile_all_append a '@' (b ++ '.' :: (c ++ tail)) hal (by decide)
      obtain ⟨htb, hdb⟩ := takeWhile_all_append b '.' (c ++ tail) hbl (by decide)
      have htc : (c ++ tail).takeWhile isEmailTldChar = c ∧
          (c ++ tail).dropWhile isEmailTldChar = tail := by
        rcases htail with h | h
        · subst h
          rw [List.append_nil]
          exact takeWhile_all_eq c hcl
        · subst h
          exact takeWhile_all_append c '\n' [] hcl (by decide)
      unfold validate_email_chars
      rw [hda]
      simp only []
      rw [hdb]
      simp only []
      rw [hta, htb, htc.1, htc.2]
      have hce : c.isEmpty = false := by
        rw [List.isEmpty_eq_false]
        exact hc0
      have hae : a.isEmpty = false := by
        rw [List.isEmpty_eq_false]
        exact ha0
      have hbe : b.isEmpty = false := by
        rw [List.isEmpty_eq_false]
        exact hb0
      rcases htail with h | h
      · subst h
        simp [hae, hbe, hce]
      · subst h
        simp [hae, hbe, hce]
    rcases h with ⟨a, b, c, hcs, ha0, hal, hb0, hbl, hc0, hcl⟩ | ⟨t, hsplit, hsh⟩
    · rw [hcs]
      have := main a b c ha0 hal hb0 hbl hc0 hcl [] (Or.inl rfl)
      simpa using this
    · rcases hsh with ⟨a, b, c, hts, ha0, hal, hb0, hbl, hc0, hcl⟩
      rw [hsplit, hts]
      have := main a b c ha0 hal hb0 hbl hc0 hcl ['\n'] (Or.inr rfl)
      have heq : (a ++ '@' :: (b ++ '.' :: c)) ++ ['\n'] =
          a ++ '@' :: (b ++ '.' :: (c ++ ['\n'])) := by simp
      rw [heq]
      exact this

theorem emailShape_last (cs : List Char) (h : EmailShape cs) :
    ∃ x, cs.getLast? = some x ∧ isEmailTldChar x = true := by
  obtain ⟨a, b, c, hcs, _, _, _, _, hc0, hcl⟩ := h
  obtain ⟨c', x, hx⟩ : ∃ c' x, c = c' ++ [x] := by
    rcases List.eq_nil_or_concat c with h | ⟨c', x, h⟩
    · exact absurd h hc0
    · exact ⟨c', x, by simpa using h⟩
  refine ⟨x, ?_, hcl x (by simp [hx])⟩
  rw [hcs, hx,
    show a ++ '@' :: (b ++ '.' :: (c' ++ [x])) = (a ++ '@' :: (b ++ '.' :: c')) ++ [x] by simp]
  exact List.getLast?_concat _

/-- C8 amended: `is_valid_email(s)` is true iff `s` matches the regex
`^[a-zA-Z0-9_.+-]+@[a-zA-Z0-9-]+\.[a-zA-Z0-9-.]+$` under Python's `re`
semantics, in which the `$` anchor also matches just before one trailing
newline: the full string has the email shape, or it is a shaped string
followed by a single newline. -/
theorem validate_email_iff_shape :
    ∀ s : String,
      validate_email s = true ↔
        (EmailShape s.data ∨ ∃ t : List Char, s.data = t ++ ['\n'] ∧ EmailShape t) :=
  fun s => validate_email_chars_iff s.data

/-- C8 counterexample: the string "a@b.c\n" is accepted by
`validate_email` although the full string does not have the email shape, so
acceptance is not equivalent to the full string matching the pattern. -/
theorem validate_email_newline_counterexample :
    validate_email "a@b.c\n" = true ∧ ¬ EmailShape ("a@b.c\n".data) := by
  refine ⟨by decide, ?_⟩
  intro h
  obtain ⟨x, hx, htld⟩ := emailShape_last _ h
  have h2 : (("a@b.c\n" : String).data).getLast? = some '\n' := by decide
  rw [h2] at hx
  rw [(Option.some.inj hx).symm] at htld
  exact absurd htld (by decide)
